import Mathlib

/-!
Verification of the unused-config-map detection engine
(pkg/kor/confimgmaps.go) against its specification.

The engine is embedded shallowly: the Kubernetes objects are records
holding exactly the fields the Go code reads, the cluster client is a
pair of listing functions returning Except (transport errors), and the
per-namespace pipeline (reference extraction, candidate listing,
difference computation, orchestration) is translated function by
function.  Helpers that live in the same repository but outside the
given source file (RemoveDuplicatesAndSort, CalculateResourceDifference,
HasExcludedLabel, HasIncludedAge, DeleteResource, unusedResourceFormatter)
are modelled from the specification text, as marked on each definition.
-/

namespace Kor

/-- Statically exempted resource: a (name, namespace-or-wildcard) pair,
from the source type ExceptionResource. -/
structure ExceptionResource where
  ResourceName : String
  Namespace : String
deriving DecidableEq, Repr

/-- The hardcoded exemption list from confimgmaps.go. -/
def exceptionconfigmaps : List ExceptionResource :=
  [{ ResourceName := "aws-auth", Namespace := "kube-system" },
   { ResourceName := "kube-root-ca.crt", Namespace := "*" }]

/-! ### Workload (pod) data model: exactly the fields the Go code reads. -/

/-- volume.ConfigMap / source.ConfigMap: carries the config-map name. -/
structure ConfigMapVolumeSource where
  name : String
deriving DecidableEq, Repr

/-- One source of a projected volume; may or may not be a config map. -/
structure VolumeProjection where
  configMap : Option ConfigMapVolumeSource
deriving DecidableEq, Repr

/-- volume.Projected: a list of projected sources. -/
structure ProjectedVolumeSource where
  sources : List VolumeProjection
deriving DecidableEq, Repr

/-- A pod volume: optional direct config-map source, optional projected source. -/
structure Volume where
  configMap : Option ConfigMapVolumeSource
  projected : Option ProjectedVolumeSource
deriving DecidableEq, Repr

/-- env.ValueFrom.ConfigMapKeyRef: carries the config-map name. -/
structure ConfigMapKeySelector where
  name : String
deriving DecidableEq, Repr

/-- env.ValueFrom: may or may not reference a config map key. -/
structure EnvVarSource where
  configMapKeyRef : Option ConfigMapKeySelector
deriving DecidableEq, Repr

/-- A container environment variable entry. -/
structure EnvVar where
  valueFrom : Option EnvVarSource
deriving DecidableEq, Repr

/-- envFrom.ConfigMapRef: carries the config-map name. -/
structure ConfigMapEnvSource where
  name : String
deriving DecidableEq, Repr

/-- A container envFrom entry. -/
structure EnvFromSource where
  configMapRef : Option ConfigMapEnvSource
deriving DecidableEq, Repr

/-- A container volume mount (name and mount path). -/
structure VolumeMount where
  name : String
  mountPath : String
deriving DecidableEq, Repr

/-- A (regular or init) container: the three sequences the code walks. -/
structure Container where
  env : List EnvVar
  envFrom : List EnvFromSource
  volumeMounts : List VolumeMount
deriving DecidableEq, Repr

/-- A pod spec: volumes, containers, init containers. -/
structure PodSpec where
  volumes : List Volume
  containers : List Container
  initContainers : List Container
deriving DecidableEq, Repr

/-- A pod. -/
structure Pod where
  spec : PodSpec
deriving DecidableEq, Repr

/-- A config-map object as the candidate lister sees it:
name, labels (Go map modelled as an association list), creation timestamp. -/
structure ConfigMap where
  name : String
  labels : List (String × String)
  creationTimestamp : Int
deriving DecidableEq, Repr

/-- The cluster client: namespace-scoped pod and config-map listing,
each of which can fail with a transport error. -/
structure Clientset where
  podList : String → Except String (List Pod)
  configMapList : String → Except String (List ConfigMap)

/-! ### Reference extraction (retrieveUsedCM). -/

/-- Contributions of one pod to volumesCM: direct config-map volumes, then
init-container volume mounts with non-empty name and mount path
(the code appends the latter to the same volumesCM slice). -/
def podVolumesCM (p : Pod) : List String :=
  (p.spec.volumes.filterMap (fun v => v.configMap.map (fun c => c.name)))
    ++ p.spec.initContainers.flatMap (fun c =>
        (c.volumeMounts.filter (fun vm => vm.name != "" && vm.mountPath != "")).map
          (fun vm => vm.name))

/-- Contributions of one pod to volumesProjectedCM. -/
def podVolumesProjectedCM (p : Pod) : List String :=
  p.spec.volumes.flatMap (fun v =>
    match v.projected with
    | none => []
    | some proj => proj.sources.filterMap (fun s => s.configMap.map (fun c => c.name)))

/-- Config-map names referenced by a container through env value-from entries
(env.ValueFrom.ConfigMapKeyRef); also used for init containers, whose env
entries the code walks with the same pattern. -/
def containerEnvCM (c : Container) : List String :=
  c.env.filterMap (fun e =>
    match e.valueFrom with
    | none => none
    | some vf => vf.configMapKeyRef.map (fun r => r.name))

/-- Config-map names referenced by a container through envFrom entries. -/
def containerEnvFromCM (c : Container) : List String :=
  c.envFrom.filterMap (fun ef => ef.configMapRef.map (fun r => r.name))

/-- Contributions of one pod to envCM. -/
def podEnvCM (p : Pod) : List String :=
  p.spec.containers.flatMap containerEnvCM

/-- Contributions of one pod to envFromCM (and, by the duplicated loop in
the source, identically to envFromContainerCM). -/
def podEnvFromCM (p : Pod) : List String :=
  p.spec.containers.flatMap containerEnvFromCM

/-- Contributions of one pod to envFromInitContainerCM: init-container env
value-from references (the code does not walk init-container envFrom). -/
def podEnvFromInitContainerCM (p : Pod) : List String :=
  p.spec.initContainers.flatMap containerEnvCM

/-- The six reference sequences returned by retrieveUsedCM. -/
structure CMRefs where
  volumesCM : List String
  volumesProjectedCM : List String
  envCM : List String
  envFromCM : List String
  envFromContainerCM : List String
  envFromInitContainerCM : List String
deriving DecidableEq, Repr

/-- The statically exempted names merged in for a namespace: exemptions whose
namespace equals the current one or is the wildcard. -/
def usedExceptions (ns : String) : List String :=
  (exceptionconfigmaps.filter (fun r => r.Namespace == ns || r.Namespace == "*")).map
    (fun r => r.ResourceName)

/-- The pure part of retrieveUsedCM, over an already-listed pod set.  The
second envFrom loop in the source performs the same extraction as the first,
so envFromContainerCM equals envFromCM.  Exempted names are appended to
volumesCM, as in the source. -/
def retrieveUsedCMFromPods (ns : String) (pods : List Pod) : CMRefs :=
  { volumesCM := pods.flatMap podVolumesCM ++ usedExceptions ns
    volumesProjectedCM := pods.flatMap podVolumesProjectedCM
    envCM := pods.flatMap podEnvCM
    envFromCM := pods.flatMap podEnvFromCM
    envFromContainerCM := pods.flatMap podEnvFromCM
    envFromInitContainerCM := pods.flatMap podEnvFromInitContainerCM }

/-- retrieveUsedCM: list the pods of the namespace, extract references,
merge exemptions; a transport error aborts with no partial result. -/
def retrieveUsedCM (cs : Clientset) (ns : String) : Except String CMRefs :=
  match cs.podList ns with
  | .error e => .error e
  | .ok pods => .ok (retrieveUsedCMFromPods ns pods)

/-! ### Candidate listing (retrieveConfigMapNames). -/

/-- Go map lookup on the label map: empty string when the key is absent. -/
def labelValue (labels : List (String × String)) (k : String) : String :=
  match labels.find? (fun kv => kv.1 == k) with
  | some kv => kv.2
  | none => ""

/-- Filter options: exclusion label selector and age-inclusion bounds. -/
structure FilterOptions where
  excludeLabels : List (String × String)
  minAge : Option Int
  maxAge : Option Int
deriving DecidableEq, Repr

/-- Modelled from the spec: HasExcludedLabel is repository code outside the
given source file.  The label-exclusion check is satisfied when the object
has at least one label key whose value equals the selector required value
for that key. -/
def HasExcludedLabel (labels : List (String × String))
    (excludeLabels : List (String × String)) : Bool :=
  excludeLabels.any (fun kv => labelValue labels kv.1 == kv.2)

/-- Modelled from the spec: HasIncludedAge is repository code outside the
given source file.  The object age (now minus creation timestamp) must lie
within the configured inclusion window; an absent bound is unrestricted. -/
def HasIncludedAge (now created : Int) (fo : FilterOptions) : Bool :=
  (match fo.minAge with
   | none => true
   | some m => decide (m ≤ now - created)) &&
  (match fo.maxAge with
   | none => true
   | some m => decide (now - created ≤ m))

/-- The pure part of retrieveConfigMapNames: skip label-excluded objects,
objects outside the age window, and objects labeled kor/used = "true";
return the remaining names. -/
def retrieveConfigMapNamesFrom (now : Int) (cms : List ConfigMap)
    (fo : FilterOptions) : List String :=
  (cms.filter (fun cm =>
    !HasExcludedLabel cm.labels fo.excludeLabels
    && HasIncludedAge now cm.creationTimestamp fo
    && labelValue cm.labels "kor/used" != "true")).map (fun cm => cm.name)

/-- retrieveConfigMapNames: list the config maps of the namespace and apply
the filter policy; a transport error aborts with no partial result. -/
def retrieveConfigMapNames (cs : Clientset) (now : Int) (ns : String)
    (fo : FilterOptions) : Except String (List String) :=
  match cs.configMapList ns with
  | .error e => .error e
  | .ok cms => .ok (retrieveConfigMapNamesFrom now cms fo)

/-! ### Difference engine. -/

/-- Lexicographic ascending order on strings, phrased over the character
lists so that it is computable by the kernel; shown equivalent to the
linear order on String below. -/
def lexLe (a b : String) : Prop :=
  ¬ List.Lex (· < ·) b.data a.data

instance : DecidableRel lexLe := fun a b =>
  inferInstanceAs (Decidable (¬ List.Lex (· < ·) b.data a.data))

/-- lexLe coincides with the linear order on String. -/
lemma lexLe_iff (a b : String) : lexLe a b ↔ a ≤ b := by
  unfold lexLe
  rw [← not_lt]
  apply not_congr
  rw [String.lt_iff_toList_lt]
  exact Iff.rfl

instance : IsTotal String lexLe :=
  ⟨fun a b => (le_total a b).imp (lexLe_iff _ _).mpr (lexLe_iff _ _).mpr⟩

instance : IsTrans String lexLe :=
  ⟨fun _ _ _ hab hbc => (lexLe_iff _ _).mpr
    (le_trans ((lexLe_iff _ _).mp hab) ((lexLe_iff _ _).mp hbc))⟩

/-- Modelled from the spec: RemoveDuplicatesAndSort is repository code
outside the given source file.  It deduplicates and sorts ascending. -/
def RemoveDuplicatesAndSort (xs : List String) : List String :=
  List.insertionSort lexLe xs.dedup

/-- Modelled from the spec: CalculateResourceDifference is repository code
outside the given source file.  It returns the candidates whose name is
absent from the reference union, deduplicated and sorted ascending. -/
def CalculateResourceDifference (usedNames names : List String) : List String :=
  RemoveDuplicatesAndSort (names.filter (fun n => decide (n ∉ usedNames)))

/-- processNamespaceCM: extraction, per-sequence dedup-and-sort, candidate
listing, union of the six sequences, difference. -/
def processNamespaceCM (cs : Clientset) (now : Int) (ns : String)
    (fo : FilterOptions) : Except String (List String) :=
  match retrieveUsedCM cs ns with
  | .error e => .error e
  | .ok refs =>
    let volumesCM := RemoveDuplicatesAndSort refs.volumesCM
    let volumesProjectedCM := RemoveDuplicatesAndSort refs.volumesProjectedCM
    let envCM := RemoveDuplicatesAndSort refs.envCM
    let envFromCM := RemoveDuplicatesAndSort refs.envFromCM
    let envFromContainerCM := RemoveDuplicatesAndSort refs.envFromContainerCM
    let envFromInitContainerCM := RemoveDuplicatesAndSort refs.envFromInitContainerCM
    match retrieveConfigMapNames cs now ns fo with
    | .error e => .error e
    | .ok configMapNames =>
      let usedConfigMaps := volumesCM ++ volumesProjectedCM ++ envCM
        ++ envFromCM ++ envFromContainerCM ++ envFromInitContainerCM
      .ok (CalculateResourceDifference usedConfigMaps configMapNames)

/-! ### Orchestration (GetUnusedConfigmaps). -/

/-- Run-time switches: delete flag and non-interactive flag. -/
structure Opts where
  deleteFlag : Bool
  noInteractive : Bool
deriving DecidableEq, Repr

/-- External collaborators consumed by the orchestrator, modelled from the
spec as opaque functions.  DeleteResource takes the unused list, the client,
the namespace, the resource-kind label and the non-interactive flag, and
returns the names that could not be deleted plus an optional error.
FormatOutput renders one namespace block.  unusedResourceFormatter takes the
output format, the text buffer, the opts and the JSON document, and returns
the rendered result plus an optional error. -/
structure Collaborators where
  deleteResource : List String → Clientset → String → String → Bool →
    List String × Option String
  formatOutput : String → List String → String → String
  unusedResourceFormatter : String → String → Opts → String →
    String × Option String

/-- The aggregated response: namespace → resource-kind label → name list
(Go nested string-keyed maps, modelled as association lists). -/
abbrev Response := List (String × List (String × List String))

/-- Go map insert: replace the entry of an existing key, else append. -/
def mapInsert {α : Type} : List (String × α) → String → α → List (String × α)
  | [], k, v => [(k, v)]
  | p :: rest, k, v =>
    if p.1 == k then (k, v) :: rest else p :: mapInsert rest k v

/-- Go map lookup. -/
def mapLookup {α : Type} : List (String × α) → String → Option α
  | [], _ => none
  | p :: rest, k => if p.1 == k then some p.2 else mapLookup rest k

/-- The list a namespace records in the Response: the computed difference,
replaced by the Deletion Executor residual when the delete flag is set. -/
def recordedCM (cs : Clientset) (now : Int) (fo : FilterOptions) (opts : Opts)
    (collab : Collaborators) (ns : String) : Except String (List String) :=
  match processNamespaceCM cs now ns fo with
  | .error e => .error e
  | .ok diff =>
    .ok (if opts.deleteFlag
      then (collab.deleteResource diff cs ns "ConfigMap" opts.noInteractive).1
      else diff)

/-- One iteration of the orchestrator loop over (text buffer, response):
a failed namespace is reported and skipped; a successful one appends its
text block and records its list under the "ConfigMap" key. -/
def stepCM (cs : Clientset) (now : Int) (fo : FilterOptions) (opts : Opts)
    (collab : Collaborators) (acc : String × Response) (ns : String) :
    String × Response :=
  match recordedCM cs now fo opts collab ns with
  | .error _ => acc
  | .ok diff =>
    (acc.1 ++ collab.formatOutput ns diff "Configmaps" ++ "\n",
     mapInsert acc.2 ns [("ConfigMap", diff)])

/-- The orchestrator loop: namespaces processed sequentially in order. -/
def runNamespacesCM (cs : Clientset) (now : Int) (fo : FilterOptions)
    (opts : Opts) (collab : Collaborators) (namespaces : List String) :
    String × Response :=
  namespaces.foldl (stepCM cs now fo opts collab) ("", [])

/-! ### JSON serialization of the Response.

Modelled from the spec: the Go standard json.MarshalIndent is an external
collaborator.  Object keys are emitted in sorted order (as Go does for
string-keyed maps); every line after the first is prefixed by pre and by
one copy of indent per nesting level. -/

/-- Escape a string for a JSON string literal (quote and backslash). -/
def jsonEscape (s : String) : String :=
  s.data.foldl (fun acc c =>
    if c = '\\' then acc ++ "\\\\"
    else if c = '"' then acc ++ "\\\"" else acc.push c) ""

/-- A JSON string literal. -/
def jsonQuote (s : String) : String := "\"" ++ jsonEscape s ++ "\""

/-- n copies of the indent unit. -/
def indentN (indent : String) : Nat → String
  | 0 => ""
  | n + 1 => indentN indent n ++ indent

/-- Sort an association list by key, ascending, as Go does when encoding a
string-keyed map. -/
def sortByKey {α : Type} (m : List (String × α)) : List (String × α) :=
  List.insertionSort (fun p q => lexLe p.1 q.1) m

/-- Render a JSON array of strings at the given nesting depth. -/
def jsonArray (pre indent : String) (depth : Nat) (xs : List String) : String :=
  match xs with
  | [] => "[]"
  | _ =>
    "[\n"
      ++ String.intercalate ",\n"
        (xs.map (fun x => pre ++ indentN indent (depth + 1) ++ jsonQuote x))
      ++ "\n" ++ pre ++ indentN indent depth ++ "]"

/-- Render a JSON object from pre-rendered field values at the given depth. -/
def jsonObj (pre indent : String) (depth : Nat)
    (fields : List (String × String)) : String :=
  match fields with
  | [] => "\x7b\x7d"
  | _ =>
    "\x7b\n"
      ++ String.intercalate ",\n"
        (fields.map (fun kv =>
          pre ++ indentN indent (depth + 1) ++ jsonQuote kv.1 ++ ": " ++ kv.2))
      ++ "\n" ++ pre ++ indentN indent depth ++ "\x7d"

/-- Modelled from the spec: json.MarshalIndent on the Response shape. -/
def jsonMarshalIndent (response : Response) (pre indent : String) : String :=
  jsonObj pre indent 0 ((sortByKey response).map (fun nsEntry =>
    (nsEntry.1,
     jsonObj pre indent 1 ((sortByKey nsEntry.2).map (fun kindEntry =>
       (kindEntry.1, jsonArray pre indent 2 kindEntry.2))))))

/-- All intermediate values of one GetUnusedConfigmaps run, exposed so that
properties of the buffer, response and JSON document can be stated. -/
structure CMRunResult where
  buffer : String
  response : Response
  jsonResponse : String
  output : String
  err : Option String
deriving Repr

/-- GetUnusedConfigmaps: the namespace universe is supplied by the external
SetNamespaceList collaborator and consumed as a list; the loop accumulates
text and response, the response is serialized with two-space indentation
(the marshaller is total on this shape, so its error branch is vacuous),
and the formatter error is printed, never propagated: err is nil. -/
def GetUnusedConfigmapsRun (namespaces : List String) (fo : FilterOptions)
    (cs : Clientset) (now : Int) (outputFormat : String) (opts : Opts)
    (collab : Collaborators) : CMRunResult :=
  let br := runNamespacesCM cs now fo opts collab namespaces
  let jsonResponse := jsonMarshalIndent br.2 "" "  "
  let fmt := collab.unusedResourceFormatter outputFormat br.1 opts jsonResponse
  { buffer := br.1, response := br.2, jsonResponse := jsonResponse,
    output := fmt.1, err := none }

/-- The pair GetUnusedConfigmaps actually returns: result string and error. -/
def GetUnusedConfigmaps (namespaces : List String) (fo : FilterOptions)
    (cs : Clientset) (now : Int) (outputFormat : String) (opts : Opts)
    (collab : Collaborators) : String × Option String :=
  let r := GetUnusedConfigmapsRun namespaces fo cs now outputFormat opts collab
  (r.output, r.err)

/-! ### Refinement variant and claim-level reference predicates. -/

/-- Refinement variant following the spec wording: identical to
processNamespaceCM except that the duplicated container-level envFrom
bucket is collapsed into the single envFromCM sequence. -/
def processNamespaceCMCollapsed (cs : Clientset) (now : Int) (ns : String)
    (fo : FilterOptions) : Except String (List String) :=
  match retrieveUsedCM cs ns with
  | .error e => .error e
  | .ok refs =>
    let volumesCM := RemoveDuplicatesAndSort refs.volumesCM
    let volumesProjectedCM := RemoveDuplicatesAndSort refs.volumesProjectedCM
    let envCM := RemoveDuplicatesAndSort refs.envCM
    let envFromCM := RemoveDuplicatesAndSort refs.envFromCM
    let envFromInitContainerCM := RemoveDuplicatesAndSort refs.envFromInitContainerCM
    match retrieveConfigMapNames cs now ns fo with
    | .error e => .error e
    | .ok configMapNames =>
      let usedConfigMaps := volumesCM ++ volumesProjectedCM ++ envCM
        ++ envFromCM ++ envFromInitContainerCM
      .ok (CalculateResourceDifference usedConfigMaps configMapNames)

/-- An env variable entry references config map x (the reference notion of
the claims, per attachment point). -/
def envVarRefsCM (e : EnvVar) (x : String) : Bool :=
  match e.valueFrom with
  | some vf => vf.configMapKeyRef == some { name := x }
  | none => false

/-- A volume references config map x, directly or via a projected source. -/
def volumeRefsCM (v : Volume) (x : String) : Bool :=
  v.configMap == some { name := x }
  || (match v.projected with
      | some proj => proj.sources.any (fun s => s.configMap == some { name := x })
      | none => false)

/-- A container references config map x through an env variable or an
envFrom entry (the reference notion of the claims, per attachment point). -/
def containerRefsCM (c : Container) (x : String) : Bool :=
  c.env.any (fun e => envVarRefsCM e x)
  || c.envFrom.any (fun ef => ef.configMapRef == some { name := x })

/-- The reference notion of claim C1, taken from its wording: the pod
references x via a volume (direct or projected), a container environment
variable, or an envFrom entry, including in init containers. -/
def podReferencesCMClaim (p : Pod) (x : String) : Bool :=
  p.spec.volumes.any (fun v => volumeRefsCM v x)
  || p.spec.containers.any (fun c => containerRefsCM c x)
  || p.spec.initContainers.any (fun c => containerRefsCM c x)

/-- The reference notion the extractor actually implements: volumes (direct
or projected), container env and envFrom entries, and init-container env
entries — init-container envFrom entries are not extracted. -/
def podReferencesCMCode (p : Pod) (x : String) : Bool :=
  p.spec.volumes.any (fun v => volumeRefsCM v x)
  || p.spec.containers.any (fun c => containerRefsCM c x)
  || p.spec.initContainers.any (fun c => c.env.any (fun e => envVarRefsCM e x))

/-! ### Concrete fixtures for witnesses and counterexamples. -/

/-- Unrestricted filter options. -/
def emptyFilter : FilterOptions :=
  { excludeLabels := [], minAge := none, maxAge := none }

/-- Opts with the delete flag off. -/
def optsNoDelete : Opts := { deleteFlag := false, noInteractive := false }

/-- Opts with the delete flag on, non-interactive. -/
def optsDelete : Opts := { deleteFlag := true, noInteractive := true }

/-- A pod whose only config-map reference is an envFrom entry of an init
container, naming config map X. -/
def podInitEnvFromX : Pod :=
  { spec :=
    { volumes := [], containers := [],
      initContainers :=
        [{ env := [],
           envFrom := [{ configMapRef := some { name := "X" } }],
           volumeMounts := [] }] } }

/-- A cluster in which every namespace holds podInitEnvFromX and a config
map named X. -/
def csInitEnvFromX : Clientset :=
  { podList := fun _ => .ok [podInitEnvFromX],
    configMapList := fun _ =>
      .ok [{ name := "X", labels := [], creationTimestamp := 0 }] }

/-- The scenario pod of the spec: cm-a referenced via a container env var. -/
def scPod : Pod :=
  { spec :=
    { volumes := [],
      containers :=
        [{ env := [{ valueFrom := some { configMapKeyRef := some { name := "cm-a" } } }],
           envFrom := [], volumeMounts := [] }],
      initContainers := [] } }

/-- The scenario cluster: namespace ns1 holds scPod plus config maps cm-a
and cm-b; every other namespace fails with a transport error. -/
def scClientset : Clientset :=
  { podList := fun ns => if ns == "ns1" then .ok [scPod] else .error "transport",
    configMapList := fun ns =>
      if ns == "ns1" then
        .ok [{ name := "cm-a", labels := [], creationTimestamp := 0 },
             { name := "cm-b", labels := [], creationTimestamp := 0 }]
      else .error "transport" }

/-- A cluster whose kube-system namespace holds the exempted config maps
and one orphan, with no pods. -/
def csExempt : Clientset :=
  { podList := fun _ => .ok [],
    configMapList := fun _ =>
      .ok [{ name := "aws-auth", labels := [], creationTimestamp := 0 },
           { name := "kube-root-ca.crt", labels := [], creationTimestamp := 0 },
           { name := "orphan", labels := [], creationTimestamp := 0 }] }

/-- A cluster with a config map marked kor/used = "true" and an orphan,
with no pods. -/
def csKorUsed : Clientset :=
  { podList := fun _ => .ok [],
    configMapList := fun _ =>
      .ok [{ name := "marked", labels := [("kor/used", "true")], creationTimestamp := 0 },
           { name := "orphan", labels := [], creationTimestamp := 0 }] }

/-- A pod whose init container mounts a volume named vol-cm at a non-empty
path, with no other config-map references. -/
def podInitMount : Pod :=
  { spec :=
    { volumes := [], containers := [],
      initContainers :=
        [{ env := [], envFrom := [],
           volumeMounts := [{ name := "vol-cm", mountPath := "/etc/cfg" }] }] } }

/-- A cluster holding podInitMount and a config map named vol-cm. -/
def csInitMount : Clientset :=
  { podList := fun _ => .ok [podInitMount],
    configMapList := fun _ =>
      .ok [{ name := "vol-cm", labels := [], creationTimestamp := 0 }] }

/-- Benign collaborators: deletion always succeeds (empty residual), the
formatter returns the buffer concatenated with the JSON document. -/
def collabFix : Collaborators :=
  { deleteResource := fun _ _ _ _ _ => ([], none),
    formatOutput := fun ns d _ => ns ++ ": " ++ String.intercalate ", " d,
    unusedResourceFormatter := fun _ buf _ js => (buf ++ js, none) }

/-- Collaborators whose output formatter fails after producing a partial
result. -/
def collabFixErr : Collaborators :=
  { deleteResource := fun _ _ _ _ _ => ([], none),
    formatOutput := fun ns d _ => ns ++ ": " ++ String.intercalate ", " d,
    unusedResourceFormatter := fun _ _ _ _ => ("partial-output", some "fmt boom") }

/-! ### Helper lemmas. -/

/-- Membership is preserved by dedup-and-sort. -/
lemma mem_RemoveDuplicatesAndSort {x : String} {xs : List String} :
    x ∈ RemoveDuplicatesAndSort xs ↔ x ∈ xs := by
  simp [RemoveDuplicatesAndSort, List.mem_insertionSort, List.mem_dedup]

/-- Dedup-and-sort output is sorted ascending. -/
lemma sorted_RemoveDuplicatesAndSort (xs : List String) :
    List.Sorted (fun a b => a ≤ b) (RemoveDuplicatesAndSort xs) :=
  (List.sorted_insertionSort lexLe xs.dedup).imp (fun h => (lexLe_iff _ _).mp h)

/-- Dedup-and-sort output has no duplicates. -/
lemma nodup_RemoveDuplicatesAndSort (xs : List String) :
    (RemoveDuplicatesAndSort xs).Nodup :=
  ((List.perm_insertionSort _ _).nodup_iff).mpr (List.nodup_dedup _)

/-- Membership in the computed difference. -/
lemma mem_CalculateResourceDifference {x : String} {usedNames names : List String} :
    x ∈ CalculateResourceDifference usedNames names ↔ x ∈ names ∧ x ∉ usedNames := by
  simp [CalculateResourceDifference, mem_RemoveDuplicatesAndSort, List.mem_filter]

/-- The union of the six deduplicated reference sequences, as assembled by
processNamespaceCM. -/
def usedCMUnion (ns : String) (pods : List Pod) : List String :=
  RemoveDuplicatesAndSort (retrieveUsedCMFromPods ns pods).volumesCM
    ++ RemoveDuplicatesAndSort (retrieveUsedCMFromPods ns pods).volumesProjectedCM
    ++ RemoveDuplicatesAndSort (retrieveUsedCMFromPods ns pods).envCM
    ++ RemoveDuplicatesAndSort (retrieveUsedCMFromPods ns pods).envFromCM
    ++ RemoveDuplicatesAndSort (retrieveUsedCMFromPods ns pods).envFromContainerCM
    ++ RemoveDuplicatesAndSort (retrieveUsedCMFromPods ns pods).envFromInitContainerCM

/-- processNamespaceCM on successful listings computes the difference of the
candidates against the union of the six deduplicated sequences. -/
lemma processNamespaceCM_ok {cs : Clientset} {now : Int} {ns : String}
    {fo : FilterOptions} {pods : List Pod} {cms : List ConfigMap}
    (hp : cs.podList ns = .ok pods) (hc : cs.configMapList ns = .ok cms) :
    processNamespaceCM cs now ns fo =
      .ok (CalculateResourceDifference (usedCMUnion ns pods)
        (retrieveConfigMapNamesFrom now cms fo)) := by
  simp [processNamespaceCM, retrieveUsedCM, retrieveConfigMapNames, hp, hc, usedCMUnion]

/-- Inversion: a successful processNamespaceCM run determines the listings
and the shape of its result. -/
lemma processNamespaceCM_ok_inv {cs : Clientset} {now : Int} {ns : String}
    {fo : FilterOptions} {d : List String}
    (h : processNamespaceCM cs now ns fo = .ok d) :
    ∃ pods cms, cs.podList ns = .ok pods ∧ cs.configMapList ns = .ok cms ∧
      d = CalculateResourceDifference (usedCMUnion ns pods)
        (retrieveConfigMapNamesFrom now cms fo) := by
  cases hp : cs.podList ns with
  | error e => simp [processNamespaceCM, retrieveUsedCM, hp] at h
  | ok pods =>
    cases hc : cs.configMapList ns with
    | error e =>
      simp [processNamespaceCM, retrieveUsedCM, retrieveConfigMapNames, hp, hc] at h
    | ok cms =>
      rw [processNamespaceCM_ok hp hc] at h
      exact ⟨pods, cms, rfl, rfl, (Except.ok.inj h).symm⟩

/-- Looking a key up after a Go-map insert. -/
lemma mapLookup_mapInsert {α : Type} (m : List (String × α)) (k k' : String)
    (v : α) :
    mapLookup (mapInsert m k v) k' = if k' = k then some v else mapLookup m k' := by
  induction m with
  | nil =>
    simp only [mapInsert, mapLookup]
    by_cases h : k' = k
    · simp [h]
    · have hk : (k == k') = false := by simp [Ne.symm h]
      simp [hk, h]
  | cons p rest ih =>
    simp only [mapInsert]
    by_cases hpk : p.1 = k
    · have hb : (p.1 == k) = true := by simp [hpk]
      simp only [hb, if_true]
      by_cases h : k' = k
      · simp [mapLookup, h]
      · have hk : (k == k') = false := by simp [Ne.symm h]
        have hp' : (p.1 == k') = false := by simp [hpk, Ne.symm h]
        simp [mapLookup, hk, hp', h]
    · have hb : (p.1 == k) = false := by simp [hpk]
      simp only [hb, if_false]
      by_cases hpk' : p.1 = k'
      · have h' : (p.1 == k') = true := by simp [hpk']
        have hkk : ¬k' = k := fun he => hpk (he ▸ hpk')
        simp [mapLookup, h', hkk]
      · have h' : (p.1 == k') = false := by simp [hpk']
        simp [mapLookup, h', ih]

/-- Looking a namespace up in the accumulated response after the loop:
the result depends only on that namespace's own processing outcome. -/
lemma mapLookup_foldl_stepCM (cs : Clientset) (now : Int) (fo : FilterOptions)
    (opts : Opts) (collab : Collaborators) (nss : List String)
    (acc : String × Response) (ns : String) :
    mapLookup (nss.foldl (stepCM cs now fo opts collab) acc).2 ns =
      match recordedCM cs now fo opts collab ns with
      | .ok d => if ns ∈ nss then some [("ConfigMap", d)] else mapLookup acc.2 ns
      | .error _ => mapLookup acc.2 ns := by
  induction nss generalizing acc with
  | nil =>
    cases recordedCM cs now fo opts collab ns <;> simp
  | cons n rest ih =>
    simp only [List.foldl_cons]
    rw [ih]
    have hstep : mapLookup (stepCM cs now fo opts collab acc n).2 ns =
        if ns = n then
          (match recordedCM cs now fo opts collab n with
           | .ok d => some [("ConfigMap", d)]
           | .error _ => mapLookup acc.2 ns)
        else mapLookup acc.2 ns := by
      cases hrecn : recordedCM cs now fo opts collab n with
      | error e =>
        simp only [stepCM, hrecn]
        by_cases h : ns = n <;> simp [h]
      | ok d =>
        simp only [stepCM, hrecn]
        rw [mapLookup_mapInsert]
    cases hrec : recordedCM cs now fo opts collab ns with
    | error e =>
      rw [hstep]
      by_cases h : ns = n
      · subst h
        simp [hrec]
      · simp [h]
    | ok d =>
      by_cases hmem : ns ∈ rest
      · simp [hmem, List.mem_cons]
      · simp only [hmem, if_false, List.mem_cons]
        rw [hstep]
        by_cases h : ns = n
        · subst h
          rw [hrec]
          simp
        · simp [h, hmem]

/-- Looking a namespace up in the final Response of a run. -/
lemma mapLookup_response (namespaces : List String) (fo : FilterOptions)
    (cs : Clientset) (now : Int) (outputFormat : String) (opts : Opts)
    (collab : Collaborators) (ns : String) :
    mapLookup (GetUnusedConfigmapsRun namespaces fo cs now outputFormat opts
        collab).response ns =
      match recordedCM cs now fo opts collab ns with
      | .ok d => if ns ∈ namespaces then some [("ConfigMap", d)] else none
      | .error _ => none := by
  have h := mapLookup_foldl_stepCM cs now fo opts collab namespaces ("", []) ns
  simp only [GetUnusedConfigmapsRun, runNamespacesCM] at h ⊢
  rw [h]
  cases recordedCM cs now fo opts collab ns <;> simp [mapLookup]

/-! Bridging lemmas: a reference at an attachment point lands in the
corresponding extracted sequence. -/

/-- A direct config-map volume contributes its name to podVolumesCM. -/
lemma mem_podVolumesCM_direct {p : Pod} {v : Volume} {x : String}
    (hv : v ∈ p.spec.volumes) (h : v.configMap = some { name := x }) :
    x ∈ podVolumesCM p := by
  simp only [podVolumesCM, List.mem_append]
  exact Or.inl (List.mem_filterMap.mpr ⟨v, hv, by simp [h]⟩)

/-- A qualifying init-container volume mount contributes its name to
podVolumesCM. -/
lemma mem_podVolumesCM_mount {p : Pod} {c : Container} {vm : VolumeMount}
    (hc : c ∈ p.spec.initContainers) (hvm : vm ∈ c.volumeMounts)
    (h1 : vm.name ≠ "") (h2 : vm.mountPath ≠ "") :
    vm.name ∈ podVolumesCM p := by
  simp only [podVolumesCM, List.mem_append]
  refine Or.inr (List.mem_flatMap.mpr ⟨c, hc, ?_⟩)
  refine List.mem_map.mpr ⟨vm, List.mem_filter.mpr ⟨hvm, ?_⟩, rfl⟩
  simp [h1, h2]

/-- A projected config-map source contributes its name to
podVolumesProjectedCM. -/
lemma mem_podVolumesProjectedCM_of {p : Pod} {v : Volume}
    {proj : ProjectedVolumeSource} {s : VolumeProjection} {x : String}
    (hv : v ∈ p.spec.volumes) (hproj : v.projected = some proj)
    (hs : s ∈ proj.sources) (h : s.configMap = some { name := x }) :
    x ∈ podVolumesProjectedCM p := by
  simp only [podVolumesProjectedCM]
  refine List.mem_flatMap.mpr ⟨v, hv, ?_⟩
  rw [hproj]
  exact List.mem_filterMap.mpr ⟨s, hs, by simp [h]⟩

/-- An env value-from reference contributes its name to containerEnvCM. -/
lemma mem_containerEnvCM_of {c : Container} {e : EnvVar} {x : String}
    (he : e ∈ c.env) (h : envVarRefsCM e x = true) :
    x ∈ containerEnvCM c := by
  refine List.mem_filterMap.mpr ⟨e, he, ?_⟩
  cases hvf : e.valueFrom with
  | none => simp [envVarRefsCM, hvf] at h
  | some vf =>
    cases hr : vf.configMapKeyRef with
    | none => simp [envVarRefsCM, hvf, hr] at h
    | some r =>
      cases r with
      | mk n =>
        simp only [envVarRefsCM, hvf, hr, beq_iff_eq, Option.some.injEq,
          ConfigMapKeySelector.mk.injEq] at h
        simp [hr, h]

/-- An envFrom reference contributes its name to containerEnvFromCM. -/
lemma mem_containerEnvFromCM_of {c : Container} {ef : EnvFromSource} {x : String}
    (he : ef ∈ c.envFrom) (h : (ef.configMapRef == some { name := x }) = true) :
    x ∈ containerEnvFromCM c := by
  refine List.mem_filterMap.mpr ⟨ef, he, ?_⟩
  rw [beq_iff_eq] at h
  simp [h]

/-- Any reference the extractor implements lands in the used union. -/
lemma mem_usedCMUnion_of_code_ref {p : Pod} {pods : List Pod} {x ns : String}
    (hmem : p ∈ pods) (href : podReferencesCMCode p x = true) :
    x ∈ usedCMUnion ns pods := by
  simp only [usedCMUnion, List.mem_append, mem_RemoveDuplicatesAndSort]
  simp only [podReferencesCMCode, Bool.or_eq_true, List.any_eq_true] at href
  rcases href with (⟨v, hv, hvr⟩ | ⟨c, hc, hcr⟩) | ⟨c, hc, e, he, her⟩
  · -- volume reference: direct or projected
    simp only [volumeRefsCM, Bool.or_eq_true, beq_iff_eq] at hvr
    rcases hvr with hdir | hproj
    · refine Or.inl (Or.inl (Or.inl (Or.inl (Or.inl ?_))))
      simp only [retrieveUsedCMFromPods, List.mem_append]
      exact Or.inl (List.mem_flatMap.mpr ⟨p, hmem, mem_podVolumesCM_direct hv hdir⟩)
    · cases hpr : v.projected with
      | none => rw [hpr] at hproj; simp at hproj
      | some proj =>
        rw [hpr] at hproj
        simp only [List.any_eq_true, beq_iff_eq] at hproj
        obtain ⟨s, hs, hsc⟩ := hproj
        refine Or.inl (Or.inl (Or.inl (Or.inl (Or.inr ?_))))
        simp only [retrieveUsedCMFromPods]
        exact List.mem_flatMap.mpr
          ⟨p, hmem, mem_podVolumesProjectedCM_of hv hpr hs hsc⟩
  · -- container reference: env or envFrom
    simp only [containerRefsCM, Bool.or_eq_true, List.any_eq_true] at hcr
    rcases hcr with ⟨e, he, her⟩ | ⟨ef, hef, hefr⟩
    · refine Or.inl (Or.inl (Or.inl (Or.inr ?_)))
      simp only [retrieveUsedCMFromPods, podEnvCM]
      exact List.mem_flatMap.mpr
        ⟨p, hmem, List.mem_flatMap.mpr ⟨c, hc, mem_containerEnvCM_of he her⟩⟩
    · refine Or.inl (Or.inl (Or.inr ?_))
      simp only [retrieveUsedCMFromPods, podEnvFromCM]
      exact List.mem_flatMap.mpr
        ⟨p, hmem, List.mem_flatMap.mpr ⟨c, hc, mem_containerEnvFromCM_of hef hefr⟩⟩
  · -- init-container env reference
    refine Or.inr ?_
    simp only [retrieveUsedCMFromPods, podEnvFromInitContainerCM]
    exact List.mem_flatMap.mpr
      ⟨p, hmem, List.mem_flatMap.mpr ⟨c, hc, mem_containerEnvCM_of he her⟩⟩

/-- The exempted names of a namespace land in the used union. -/
lemma mem_usedCMUnion_of_exception {x ns : String} (pods : List Pod)
    (h : x ∈ usedExceptions ns) : x ∈ usedCMUnion ns pods := by
  simp only [usedCMUnion, List.mem_append, mem_RemoveDuplicatesAndSort]
  refine Or.inl (Or.inl (Or.inl (Or.inl (Or.inl ?_))))
  simp only [retrieveUsedCMFromPods, List.mem_append]
  exact Or.inr h

/-- kube-root-ca.crt is exempted in every namespace (wildcard entry). -/
lemma kube_root_mem_usedExceptions (ns : String) :
    "kube-root-ca.crt" ∈ usedExceptions ns := by
  refine List.mem_map.mpr
    ⟨{ ResourceName := "kube-root-ca.crt", Namespace := "*" }, ?_, rfl⟩
  refine List.mem_filter.mpr ⟨by simp [exceptionconfigmaps], ?_⟩
  simp

/-- aws-auth is exempted in kube-system. -/
lemma aws_auth_mem_usedExceptions :
    "aws-auth" ∈ usedExceptions "kube-system" := by decide

/-! ### The claims. -/

/-- C1 counterexample: podInitEnvFromX references config map X via an
envFrom entry of an init container (a reference in the sense of the claim),
yet the unused set computed for its namespace is exactly ["X"]: the claim,
as stated, fails because init-container envFrom entries are not extracted. -/
theorem C1_counterexample :
    podReferencesCMClaim podInitEnvFromX "X" = true ∧
    processNamespaceCM csInitEnvFromX 0 "ns1" emptyFilter = .ok ["X"] ∧
    "X" ∈ (["X"] : List String) :=
  ⟨rfl, rfl, by simp⟩

/-- C1 (amended): for every pod that references config map x via a volume
(direct or projected source), a container environment variable (in regular
or init containers), or a container-level envFrom entry — the attachment
points the extractor walks; init-container envFrom entries are not among
them — x does not appear in the unused set computed for that namespace,
no matter how many duplicate references exist. -/
theorem C1_referenced_not_unused (cs : Clientset) (now : Int) (ns : String)
    (fo : FilterOptions) (pods : List Pod) (p : Pod) (x : String)
    (d : List String) (hp : cs.podList ns = .ok pods) (hmem : p ∈ pods)
    (href : podReferencesCMCode p x = true)
    (hok : processNamespaceCM cs now ns fo = .ok d) :
    x ∉ d := by
  obtain ⟨pods', cms, hp', hc, rfl⟩ := processNamespaceCM_ok_inv hok
  have hpe : pods' = pods := (Except.ok.inj (hp ▸ hp')).symm
  subst hpe
  intro hx
  exact (mem_CalculateResourceDifference.mp hx).2
    (mem_usedCMUnion_of_code_ref hmem href)

/-- Witness for C1 (amended): in the scenario cluster, cm-a is referenced
by a container env var and is indeed absent from the computed unused set
["cm-b"]. -/
theorem C1_referenced_not_unused_witness : "cm-a" ∉ (["cm-b"] : List String) :=
  C1_referenced_not_unused scClientset 0 "ns1" emptyFilter [scPod] scPod
    "cm-a" ["cm-b"] rfl (by simp) rfl rfl

/-- C2: the statically exempted config maps never appear in a computed
unused set: aws-auth is absent from the unused set of kube-system, and
kube-root-ca.crt is absent from the unused set of every namespace, even
when unreferenced by any pod. -/
theorem C2_exempted_never_unused (cs : Clientset) (now : Int)
    (fo : FilterOptions) :
    (∀ d, processNamespaceCM cs now "kube-system" fo = .ok d →
      "aws-auth" ∉ d) ∧
    (∀ ns d, processNamespaceCM cs now ns fo = .ok d →
      "kube-root-ca.crt" ∉ d) := by
  constructor
  · intro d hok hx
    obtain ⟨pods, cms, hp, hc, rfl⟩ := processNamespaceCM_ok_inv hok
    exact (mem_CalculateResourceDifference.mp hx).2
      (mem_usedCMUnion_of_exception pods aws_auth_mem_usedExceptions)
  · intro ns d hok hx
    obtain ⟨pods, cms, hp, hc, rfl⟩ := processNamespaceCM_ok_inv hok
    exact (mem_CalculateResourceDifference.mp hx).2
      (mem_usedCMUnion_of_exception pods (kube_root_mem_usedExceptions ns))

/-- Witness for C2: in a cluster with no pods and config maps aws-auth,
kube-root-ca.crt and orphan in kube-system, the unused set is ["orphan"]
and both exempted names are absent from it. -/
theorem C2_exempted_never_unused_witness :
    processNamespaceCM csExempt 0 "kube-system" emptyFilter = .ok ["orphan"] ∧
    "aws-auth" ∉ (["orphan"] : List String) ∧
    "kube-root-ca.crt" ∉ (["orphan"] : List String) :=
  ⟨rfl,
   (C2_exempted_never_unused csExempt 0 emptyFilter).1 ["orphan"] rfl,
   (C2_exempted_never_unused csExempt 0 emptyFilter).2 "kube-system" ["orphan"] rfl⟩

/-- C3: a namespace whose per-namespace processing fails contributes no
entry to the Response, and every other namespace is still processed and
contributes its own entry; a single namespace failure never aborts the run. -/
theorem C3_fault_isolation (namespaces : List String) (fo : FilterOptions)
    (cs : Clientset) (now : Int) (outputFormat : String) (opts : Opts)
    (collab : Collaborators) (ns : String) :
    (∀ e, processNamespaceCM cs now ns fo = .error e →
      mapLookup (GetUnusedConfigmapsRun namespaces fo cs now outputFormat
        opts collab).response ns = none) ∧
    (∀ ns2 d, ns2 ∈ namespaces → ns2 ≠ ns →
      recordedCM cs now fo opts collab ns2 = .ok d →
      mapLookup (GetUnusedConfigmapsRun namespaces fo cs now outputFormat
        opts collab).response ns2 = some [("ConfigMap", d)]) := by
  constructor
  · intro e he
    rw [mapLookup_response]
    have h : recordedCM cs now fo opts collab ns = .error e := by
      simp [recordedCM, he]
    rw [h]
  · intro ns2 d hmem _ hrec
    rw [mapLookup_response, hrec]
    simp [hmem]

/-- Witness for C3: with namespaces [ns1, ns2] over the scenario cluster,
ns2's pod listing fails and contributes no entry, while ns1 still records
its unused set. -/
theorem C3_fault_isolation_witness :
    mapLookup (GetUnusedConfigmapsRun ["ns1", "ns2"] emptyFilter scClientset
      0 "json" optsNoDelete collabFix).response "ns2" = none ∧
    mapLookup (GetUnusedConfigmapsRun ["ns1", "ns2"] emptyFilter scClientset
      0 "json" optsNoDelete collabFix).response "ns1" =
      some [("ConfigMap", ["cm-b"])] :=
  ⟨(C3_fault_isolation ["ns1", "ns2"] emptyFilter scClientset 0 "json"
      optsNoDelete collabFix "ns2").1 "transport" rfl,
   (C3_fault_isolation ["ns1", "ns2"] emptyFilter scClientset 0 "json"
      optsNoDelete collabFix "ns2").2 "ns1" ["cm-b"] (by simp) (by decide) rfl⟩

/-- C4: with the delete flag set the Response records the Deletion Executor
residual in place of the computed unused set; with the flag unset it
records the computed set unchanged. -/
theorem C4_delete_residual (namespaces : List String) (fo : FilterOptions)
    (cs : Clientset) (now : Int) (outputFormat : String) (opts : Opts)
    (collab : Collaborators) (ns : String) (diff : List String)
    (hok : processNamespaceCM cs now ns fo = .ok diff)
    (hns : ns ∈ namespaces) :
    mapLookup (GetUnusedConfigmapsRun namespaces fo cs now outputFormat opts
      collab).response ns =
      some [("ConfigMap",
        if opts.deleteFlag
        then (collab.deleteResource diff cs ns "ConfigMap" opts.noInteractive).1
        else diff)] := by
  rw [mapLookup_response]
  have h : recordedCM cs now fo opts collab ns =
      .ok (if opts.deleteFlag
        then (collab.deleteResource diff cs ns "ConfigMap" opts.noInteractive).1
        else diff) := by
    simp [recordedCM, hok]
  rw [h]
  simp [hns]

/-- Witness for C4: deletion succeeding on ["cm-b"] records the empty
residual; with the flag off, ["cm-b"] is recorded unchanged. -/
theorem C4_delete_residual_witness :
    mapLookup (GetUnusedConfigmapsRun ["ns1"] emptyFilter scClientset 0
      "json" optsDelete collabFix).response "ns1" = some [("ConfigMap", [])] ∧
    mapLookup (GetUnusedConfigmapsRun ["ns1"] emptyFilter scClientset 0
      "json" optsNoDelete collabFix).response "ns1" =
      some [("ConfigMap", ["cm-b"])] :=
  ⟨C4_delete_residual ["ns1"] emptyFilter scClientset 0 "json" optsDelete
      collabFix "ns1" ["cm-b"] rfl (by simp),
   C4_delete_residual ["ns1"] emptyFilter scClientset 0 "json" optsNoDelete
      collabFix "ns1" ["cm-b"] rfl (by simp)⟩

/-- C5: every successfully computed per-namespace unused set is sorted in
lexicographic ascending order and contains no duplicate names. -/
theorem C5_sorted_nodup (cs : Clientset) (now : Int) (ns : String)
    (fo : FilterOptions) (d : List String)
    (hok : processNamespaceCM cs now ns fo = .ok d) :
    List.Sorted (fun a b => a ≤ b) d ∧ d.Nodup := by
  obtain ⟨pods, cms, hp, hc, rfl⟩ := processNamespaceCM_ok_inv hok
  exact ⟨sorted_RemoveDuplicatesAndSort _, nodup_RemoveDuplicatesAndSort _⟩

/-- Witness for C5 at the scenario cluster. -/
theorem C5_sorted_nodup_witness :
    List.Sorted (fun a b : String => a ≤ b) ["cm-b"] ∧
    List.Nodup (["cm-b"] : List String) :=
  C5_sorted_nodup scClientset 0 "ns1" emptyFilter ["cm-b"] rfl

/-- C6: a config map whose labels carry kor/used = "true" never appears in
its namespace's unused set, even when unreferenced (namespace-unique names,
as in a cluster). -/
theorem C6_kor_used_never_unused (cs : Clientset) (now : Int) (ns : String)
    (fo : FilterOptions) (cms : List ConfigMap) (cm : ConfigMap)
    (d : List String) (hc : cs.configMapList ns = .ok cms)
    (hnodup : (cms.map (fun c => c.name)).Nodup) (hcm : cm ∈ cms)
    (hl : labelValue cm.labels "kor/used" = "true")
    (hok : processNamespaceCM cs now ns fo = .ok d) :
    cm.name ∉ d := by
  obtain ⟨pods, cms', hp, hc', rfl⟩ := processNamespaceCM_ok_inv hok
  have hce : cms' = cms := (Except.ok.inj (hc ▸ hc')).symm
  subst hce
  intro hx
  have hx' := (mem_CalculateResourceDifference.mp hx).1
  simp only [retrieveConfigMapNamesFrom, List.mem_map] at hx'
  obtain ⟨cm', hcm', hname⟩ := hx'
  have hcm'mem := (List.mem_filter.mp hcm').1
  have hpred := (List.mem_filter.mp hcm').2
  have hee : cm' = cm := List.inj_on_of_nodup_map hnodup hcm'mem hcm hname
  subst hee
  simp only [Bool.and_eq_true, bne_iff_ne, ne_eq] at hpred
  exact hpred.2 hl

/-- Witness for C6: the marked config map is absent from the unused set
["orphan"] of its cluster. -/
theorem C6_kor_used_never_unused_witness : "marked" ∉ (["orphan"] : List String) :=
  C6_kor_used_never_unused csKorUsed 0 "ns1" emptyFilter
    [{ name := "marked", labels := [("kor/used", "true")], creationTimestamp := 0 },
     { name := "orphan", labels := [], creationTimestamp := 0 }]
    { name := "marked", labels := [("kor/used", "true")], creationTimestamp := 0 }
    ["orphan"] rfl (by decide) (by simp) rfl rfl

/-- C7: the structured output is the JSON document obtained by serializing
the Response with two-space indentation, and the Response maps each
successfully processed namespace to a map with the exact key "ConfigMap"
holding that namespace's recorded unused list. -/
theorem C7_json_document (namespaces : List String) (fo : FilterOptions)
    (cs : Clientset) (now : Int) (outputFormat : String) (opts : Opts)
    (collab : Collaborators) :
    (GetUnusedConfigmapsRun namespaces fo cs now outputFormat opts
        collab).jsonResponse =
      jsonMarshalIndent (GetUnusedConfigmapsRun namespaces fo cs now
        outputFormat opts collab).response "" "  " ∧
    ∀ ns d, ns ∈ namespaces → recordedCM cs now fo opts collab ns = .ok d →
      mapLookup (GetUnusedConfigmapsRun namespaces fo cs now outputFormat
        opts collab).response ns = some [("ConfigMap", d)] := by
  refine ⟨rfl, ?_⟩
  intro ns d hmem hrec
  rw [mapLookup_response, hrec]
  simp [hmem]

/-- Witness for C7: the scenario run records ns1 under "ConfigMap" and its
JSON document is the expected two-space-indented text. -/
theorem C7_json_document_witness :
    mapLookup (GetUnusedConfigmapsRun ["ns1"] emptyFilter scClientset 0
      "json" optsNoDelete collabFix).response "ns1" =
      some [("ConfigMap", ["cm-b"])] ∧
    (GetUnusedConfigmapsRun ["ns1"] emptyFilter scClientset 0 "json"
      optsNoDelete collabFix).jsonResponse =
      "\x7b\n  \"ns1\": \x7b\n    \"ConfigMap\": [\n      \"cm-b\"\n    ]\n  \x7d\n\x7d" :=
  ⟨(C7_json_document ["ns1"] emptyFilter scClientset 0 "json" optsNoDelete
      collabFix).2 "ns1" ["cm-b"] (by simp) rfl,
   by decide⟩

/-- C8: collapsing the duplicated container-level envFrom bucket into a
single sequence does not change the computed result for any input. -/
theorem C8_collapsed_equivalent (cs : Clientset) (now : Int) (ns : String)
    (fo : FilterOptions) :
    processNamespaceCMCollapsed cs now ns fo = processNamespaceCM cs now ns fo := by
  cases hp : cs.podList ns with
  | error e =>
    simp [processNamespaceCMCollapsed, processNamespaceCM, retrieveUsedCM, hp]
  | ok pods =>
    cases hc : cs.configMapList ns with
    | error e =>
      simp [processNamespaceCMCollapsed, processNamespaceCM, retrieveUsedCM,
        retrieveConfigMapNames, hp, hc]
    | ok cms =>
      simp only [processNamespaceCMCollapsed, processNamespaceCM,
        retrieveUsedCM, retrieveConfigMapNames, hp, hc]
      congr 1
      unfold CalculateResourceDifference
      congr 1
      refine List.filter_congr ?_
      intro x _
      refine decide_eq_decide.mpr (not_congr ?_)
      simp only [List.mem_append]
      tauto

/-- C9: an init-container volume mount with non-empty name and mount path
adds its name to the used set, so a candidate config map of that name never
appears in the unused set, even if no attachment point names it as a
config map. -/
theorem C9_init_mount_used (cs : Clientset) (now : Int) (ns : String)
    (fo : FilterOptions) (pods : List Pod) (p : Pod) (c : Container)
    (vm : VolumeMount) (hp : cs.podList ns = .ok pods) (hpod : p ∈ pods)
    (hc : c ∈ p.spec.initContainers) (hvm : vm ∈ c.volumeMounts)
    (hname : vm.name ≠ "") (hpath : vm.mountPath ≠ "") :
    vm.name ∈ (retrieveUsedCMFromPods ns pods).volumesCM ∧
    ∀ d, processNamespaceCM cs now ns fo = .ok d → vm.name ∉ d := by
  have hmem : vm.name ∈ (retrieveUsedCMFromPods ns pods).volumesCM := by
    simp only [retrieveUsedCMFromPods, List.mem_append]
    exact Or.inl (List.mem_flatMap.mpr
      ⟨p, hpod, mem_podVolumesCM_mount hc hvm hname hpath⟩)
  refine ⟨hmem, ?_⟩
  intro d hok hx
  obtain ⟨pods', cms, hp', hc', rfl⟩ := processNamespaceCM_ok_inv hok
  have hpe : pods' = pods := (Except.ok.inj (hp ▸ hp')).symm
  subst hpe
  refine (mem_CalculateResourceDifference.mp hx).2 ?_
  simp only [usedCMUnion, List.mem_append, mem_RemoveDuplicatesAndSort]
  exact Or.inl (Or.inl (Or.inl (Or.inl (Or.inl hmem))))

/-- Witness for C9: vol-cm, mounted by an init container, is in the used
set and absent from the (empty) unused set of its cluster. -/
theorem C9_init_mount_used_witness :
    "vol-cm" ∈ (retrieveUsedCMFromPods "ns1" [podInitMount]).volumesCM ∧
    "vol-cm" ∉ ([] : List String) := by
  have h := C9_init_mount_used csInitMount 0 "ns1" emptyFilter [podInitMount]
    podInitMount
    { env := [], envFrom := [],
      volumeMounts := [{ name := "vol-cm", mountPath := "/etc/cfg" }] }
    { name := "vol-cm", mountPath := "/etc/cfg" }
    rfl (by simp [podInitMount]) (by simp [podInitMount]) (by simp)
    (by decide) (by decide)
  exact ⟨h.1, h.2 [] rfl⟩

/-- C10: a failing output formatter is never propagated: GetUnusedConfigmaps
returns whatever result string the formatter produced together with a nil
error. -/
theorem C10_formatter_error_swallowed (namespaces : List String)
    (fo : FilterOptions) (cs : Clientset) (now : Int) (outputFormat : String)
    (opts : Opts) (collab : Collaborators) (e : String)
    (_h : (collab.unusedResourceFormatter outputFormat
      (GetUnusedConfigmapsRun namespaces fo cs now outputFormat opts
        collab).buffer opts
      (GetUnusedConfigmapsRun namespaces fo cs now outputFormat opts
        collab).jsonResponse).2 = some e) :
    GetUnusedConfigmaps namespaces fo cs now outputFormat opts collab =
      ((collab.unusedResourceFormatter outputFormat
        (GetUnusedConfigmapsRun namespaces fo cs now outputFormat opts
          collab).buffer opts
        (GetUnusedConfigmapsRun namespaces fo cs now outputFormat opts
          collab).jsonResponse).1, none) := rfl

/-- Witness for C10: with a formatter that fails after producing
"partial-output", the run still returns that string and a nil error. -/
theorem C10_formatter_error_swallowed_witness :
    GetUnusedConfigmaps ["ns1"] emptyFilter scClientset 0 "json"
      optsNoDelete collabFixErr = ("partial-output", none) :=
  C10_formatter_error_swallowed ["ns1"] emptyFilter scClientset 0 "json"
    optsNoDelete collabFixErr "fmt boom" rfl

end Kor
